/-
Verification of the SEP lifecycle automation (tools/sep-automation).

This file gives a shallow embedding, in Lean 4, of the pure decision logic
of the SEP automation bot: the state-transition rules (src/rules.ts), the
staleness analyzer (src/sep/analyzer.ts), the ping and transition action
handlers (src/actions/ping.ts, src/actions/transition.ts), the detector's
de-duplication (src/sep/detector.ts), the GitHub client's 404 handling
(src/github/client.ts), and the per-item processor (src/processor.ts).

Modelling conventions:
- JavaScript `Date` values are modelled as `Int` millisecond timestamps;
  `daysBetween` uses floor division exactly as `Math.floor` does.
- Asynchronous GitHub API calls are modelled by an environment record
  (`GitHubEnv`) of response functions returning `Except`; a thrown
  exception is the `Except.error` case.  Handlers return, besides the
  `ActionResult`, the ordered list of mutation calls they issued
  (`List GitHubOp`), so ordering and frame properties can be stated.
- `await` corresponds to ordinary sequencing.  The one place the source
  calls an async method WITHOUT `await` (processor.ts line 79,
  `this.updateSummaryFromStaleness(...)`) is modelled by returning the
  would-be update as a separate `pendingSummaryUpdates` function: its
  effect is not part of the `summaryData` visible when `process` returns.
- The `MaintainerResolver` class is the second document concatenated into
  src/tools/sep-automation/src/hooks/discord.ts (lines 228-334).  Its
  lazily-loaded sponsor cache (`ensureSponsorsLoaded`) is embedded as
  `MaintainerResolver.loadedSponsors` over the per-team API responses;
  the handlers and the processor take the resolved set as the
  `sponsorSet` parameter, matching the populated-once, read-only-for-the-
  run cache the source threads through `canSponsor`.
- Fields of source records never read by the embedded functions (ids,
  URLs, `createdAt`, item type) are omitted from the Lean structures.
-/

import Mathlib

namespace SepAutomation

/-! ## Data model (src/types.ts) -/

/-- SEP states as represented by labels (`SEPState` in src/types.ts). -/
inductive SEPState where
  | proposal
  | draft
  | inReview
  | accepted
  | final
  | dormant
deriving DecidableEq, Repr

/-- The GitHub label string for each state (states are stored as labels;
`in-review` is the hyphenated label). -/
def stateLabel : SEPState → String
  | .proposal => "proposal"
  | .draft => "draft"
  | .inReview => "in-review"
  | .accepted => "accepted"
  | .final => "final"
  | .dormant => "dormant"

/-! ## Rules table (src/rules.ts) -/

/-- `STATE_TRANSITIONS` from src/rules.ts: each state maps to the array of
states it can transition to. -/
def STATE_TRANSITIONS : SEPState → List SEPState
  | .proposal => [.draft, .dormant]
  | .draft => [.inReview, .dormant]
  | .inReview => [.accepted, .draft, .dormant]
  | .accepted => [.final, .dormant]
  | .final => []
  | .dormant => [.proposal, .draft]

/-- `STATE_LABELS` from src/rules.ts. -/
def STATE_LABELS : List SEPState :=
  [.proposal, .draft, .inReview, .accepted, .final, .dormant]

/-- `isStateLabel`/`extractState` helper: parse a label string into a state
(membership in `STATE_LABELS`, via the label spelling). -/
def parseStateLabel (label : String) : Option SEPState :=
  STATE_LABELS.find? (fun s => stateLabel s == label)

/-- `extractState` from src/rules.ts: first label in the list that is a
state label wins. -/
def extractState : List String → Option SEPState
  | [] => none
  | l :: rest =>
    match parseStateLabel l with
    | some s => some s
    | none => extractState rest

/-- `isValidTransition` from src/rules.ts: an absent source state (initial
assignment) is always valid; otherwise the target must be listed in the
source state's outgoing edges. -/
def isValidTransition (fromState : Option SEPState) (toState : SEPState) : Bool :=
  match fromState with
  | none => true
  | some s => (STATE_TRANSITIONS s).contains toState

/-! ## Claim C1 -/

/-- C1: for every source state S (or S absent) and every target T,
`isValidTransition(S, T)` is true iff S is absent or T is in S's
outgoing-edge set in `STATE_TRANSITIONS`; in particular every transition
out of `final` is rejected. -/
theorem isValidTransition_iff_edge :
    (∀ (t : SEPState), isValidTransition none t = true) ∧
    (∀ (s t : SEPState),
      (isValidTransition (some s) t = true ↔ t ∈ STATE_TRANSITIONS s)) ∧
    (∀ (t : SEPState), isValidTransition (some SEPState.final) t = false) := by
  refine ⟨fun t => rfl, fun s t => ?_, fun t => ?_⟩
  · cases s <;> cases t <;> simp [isValidTransition, STATE_TRANSITIONS]
  · cases t <;> rfl

/-! ## Dates (src/utils/dates.ts) -/

/-- `MS_PER_DAY` from src/utils/dates.ts. -/
def MS_PER_DAY : Int := 24 * 60 * 60 * 1000

/-- `daysBetween` from src/utils/dates.ts:
`Math.floor((date2.getTime() - date1.getTime()) / MS_PER_DAY)`.
Dates are modelled as millisecond timestamps; `Math.floor` of the real
quotient is floor division `Int.fdiv`. -/
def daysBetween (date1 date2 : Int) : Int :=
  Int.fdiv (date2 - date1) MS_PER_DAY

/-! ## Comments and the bot marker (src/types.ts, src/sep/analyzer.ts) -/

/-- `BOT_COMMENT_MARKER` from src/types.ts. -/
def BOT_COMMENT_MARKER : String := "<!-- sep-automation-bot -->"

/-- `GitHubComment` (src/github/types.ts), restricted to the fields the
embedded functions read: `body`, `user.login` and `created_at`. -/
structure GitHubComment where
  body : String
  user : Option String
  created_at : Int
deriving DecidableEq, Repr

/-- `GitHubEvent` (src/github/types.ts), restricted to the fields the
embedded functions read: `actor.login` and `created_at`. -/
structure GitHubEvent where
  actor : Option String
  created_at : Int
deriving DecidableEq, Repr

/-- Character-list version of "starts with": `charsStartWith s pat` is true
when `pat` is an initial segment of `s`. -/
def charsStartWith : List Char → List Char → Bool
  | _, [] => true
  | [], _ :: _ => false
  | a :: as, b :: bs => a == b && charsStartWith as bs

/-- Substring occurrence check over character lists, scanning left to
right. -/
def charsContain (pat : List Char) : List Char → Bool
  | [] => charsStartWith [] pat
  | c :: rest => charsStartWith (c :: rest) pat || charsContain pat rest

/-- JavaScript `String.prototype.includes`: does `s` contain `pat` as a
contiguous substring? -/
def strIncludes (s pat : String) : Bool := charsContain pat.data s.data

/-- `SEPAnalyzer.getLastBotPingDate` (src/sep/analyzer.ts): walk the
comment list from the end backwards and return the creation date of the
first comment found whose body includes `BOT_COMMENT_MARKER`. -/
def getLastBotPingDate (comments : List GitHubComment) : Option Int :=
  match comments.reverse.find? (fun c => strIncludes c.body BOT_COMMENT_MARKER) with
  | some c => some c.created_at
  | none => none

/-! ## Configuration (src/config.ts) -/

/-- The timing/behavior part of `Config` (src/config.ts); authentication
and repository-target fields are not read by the embedded logic. -/
structure Config where
  proposalPingDays : Int
  proposalDormantDays : Int
  draftPingDays : Int
  acceptedPingDays : Int
  maintainerInactivityDays : Int
  pingCooldownDays : Int
  dryRun : Bool
deriving DecidableEq, Repr

/-- The default configuration: thresholds from `STALENESS_RULES`,
`MAINTAINER_INACTIVITY_DAYS` and `PING_COOLDOWN_DAYS` in src/rules.ts,
as loaded by `loadConfig` when no environment override is present. -/
def defaultConfig : Config :=
  ⟨90, 180, 90, 30, 14, 14, false⟩

/-! ## SEP items and analyses (src/types.ts) -/

/-- `SEPItem` (src/types.ts), restricted to the fields the embedded
functions read. -/
structure SEPItem where
  number : Int
  title : String
  state : Option SEPState
  labels : List String
  author : String
  assignees : List String
  updatedAt : Int
  isClosed : Bool
deriving DecidableEq, Repr

/-- The `pingTarget` union `'author' | 'sponsor' | 'maintainer'`. -/
inductive PingTarget where
  | author
  | sponsor
  | maintainer
deriving DecidableEq, Repr

/-- `StaleAnalysis` (src/types.ts). -/
structure StaleAnalysis where
  item : SEPItem
  daysSinceActivity : Int
  shouldPing : Bool
  shouldMarkDormant : Bool
  shouldClose : Bool
  pingTarget : Option PingTarget
  reason : Option String
deriving DecidableEq, Repr

/-! ## Staleness analyzer (src/sep/analyzer.ts) -/

/-- `SEPAnalyzer.analyzeProposal`. -/
def SEPAnalyzer.analyzeProposal (cfg : Config) (item : SEPItem)
    (daysSinceActivity : Int) : StaleAnalysis :=
  if daysSinceActivity ≥ cfg.proposalDormantDays then
    ⟨item, daysSinceActivity, false, true, true, none,
      some s!"Proposal inactive for {daysSinceActivity} days"⟩
  else if daysSinceActivity ≥ cfg.proposalPingDays then
    ⟨item, daysSinceActivity, true, false, false, some PingTarget.author,
      some s!"Proposal inactive for {daysSinceActivity} days"⟩
  else
    ⟨item, daysSinceActivity, false, false, false, none, none⟩

/-- `SEPAnalyzer.analyzeDraft`. -/
def SEPAnalyzer.analyzeDraft (cfg : Config) (item : SEPItem)
    (daysSinceActivity : Int) : StaleAnalysis :=
  if daysSinceActivity ≥ cfg.draftPingDays then
    ⟨item, daysSinceActivity, true, false, false, some PingTarget.sponsor,
      some s!"Draft inactive for {daysSinceActivity} days"⟩
  else
    ⟨item, daysSinceActivity, false, false, false, none, none⟩

/-- `SEPAnalyzer.analyzeAccepted`. -/
def SEPAnalyzer.analyzeAccepted (cfg : Config) (item : SEPItem)
    (daysSinceActivity : Int) : StaleAnalysis :=
  if daysSinceActivity ≥ cfg.acceptedPingDays then
    ⟨item, daysSinceActivity, true, false, false, some PingTarget.author,
      some s!"Accepted SEP inactive for {daysSinceActivity} days"⟩
  else
    ⟨item, daysSinceActivity, false, false, false, none, none⟩

/-- The `switch (item.state)` dispatch at the end of
`SEPAnalyzer.analyze`: proposal/draft/accepted have dedicated analyses,
every other state is never stale by this path. -/
def SEPAnalyzer.analyzeState (cfg : Config) (item : SEPItem)
    (daysSinceActivity : Int) : StaleAnalysis :=
  match item.state with
  | some SEPState.proposal => SEPAnalyzer.analyzeProposal cfg item daysSinceActivity
  | some SEPState.draft => SEPAnalyzer.analyzeDraft cfg item daysSinceActivity
  | some SEPState.accepted => SEPAnalyzer.analyzeAccepted cfg item daysSinceActivity
  | _ => ⟨item, daysSinceActivity, false, false, false, none, none⟩

/-- `SEPAnalyzer.analyze` (src/sep/analyzer.ts): compute days since last
activity; if the most recent bot-marked comment is within the cooldown
window, short-circuit to "no action"; otherwise dispatch on state.
The comment list (the response of `github.getComments`) and `now` are
explicit parameters. -/
def SEPAnalyzer.analyze (cfg : Config) (comments : List GitHubComment)
    (now : Int) (item : SEPItem) : StaleAnalysis :=
  let daysSinceActivity := daysBetween item.updatedAt now
  match getLastBotPingDate comments with
  | some lastPingDate =>
    let daysSincePing := daysBetween lastPingDate now
    if daysSincePing < cfg.pingCooldownDays then
      ⟨item, daysSinceActivity, false, false, false, none,
        some s!"Recently pinged {daysSincePing} days ago"⟩
    else
      SEPAnalyzer.analyzeState cfg item daysSinceActivity
  | none => SEPAnalyzer.analyzeState cfg item daysSinceActivity

/-- `SEPAnalyzer.checkMaintainerActivity`'s scan for the most recent
event/comment by a given user (strictly later dates replace the running
maximum, exactly as the two `for` loops do). -/
def lastActivityOf (user : String) (events : List GitHubEvent)
    (comments : List GitHubComment) : Option Int :=
  let afterEvents := events.foldl
    (fun acc e =>
      if e.actor == some user then
        match acc with
        | none => some e.created_at
        | some la => if e.created_at > la then some e.created_at else some la
      else acc)
    none
  comments.foldl
    (fun acc c =>
      if c.user == some user then
        match acc with
        | none => some c.created_at
        | some la => if c.created_at > la then some c.created_at else some la
      else acc)
    afterEvents

/-- `SEPAnalyzer.checkMaintainerActivity` (src/sep/analyzer.ts): last
activity by the user across events and comments, falling back to the
item's own update date; returns days since and the ping flag. -/
def SEPAnalyzer.checkMaintainerActivity (cfg : Config)
    (events : List GitHubEvent) (comments : List GitHubComment)
    (now : Int) (item : SEPItem) (maintainerUsername : String) :
    Int × Bool :=
  let lastActivity := (lastActivityOf maintainerUsername events comments).getD item.updatedAt
  let d := daysBetween lastActivity now
  (d, d ≥ cfg.maintainerInactivityDays)

/-! ## Lemmas about the marker scan -/

/-- `find?` skips a block in which the predicate is everywhere false. -/
theorem find?_append_none {α : Type} (p : α → Bool) (l₁ l₂ : List α)
    (h : ∀ x ∈ l₁, p x = false) : (l₁ ++ l₂).find? p = l₂.find? p := by
  induction l₁ with
  | nil => rfl
  | cons a as ih =>
    have ha : p a = false := h a (by simp)
    simp only [List.cons_append, List.find?, ha]
    exact ih (fun x hx => h x (by simp [hx]))

/-- When a marker comment `c` is followed only by marker-free comments,
the backwards scan of `getLastBotPingDate` returns `c`'s creation date. -/
theorem getLastBotPingDate_split (pre post : List GitHubComment)
    (c : GitHubComment)
    (hc : strIncludes c.body BOT_COMMENT_MARKER = true)
    (hpost : ∀ x ∈ post, strIncludes x.body BOT_COMMENT_MARKER = false) :
    getLastBotPingDate (pre ++ c :: post) = some c.created_at := by
  unfold getLastBotPingDate
  rw [show (pre ++ c :: post).reverse = post.reverse ++ ([c] ++ pre.reverse) by
        simp]
  rw [find?_append_none _ post.reverse _
        (fun x hx => hpost x (List.mem_reverse.mp hx))]
  simp [List.find?, hc]

/-- When no comment body includes the marker at all, `getLastBotPingDate`
returns `none`. -/
theorem getLastBotPingDate_none (comments : List GitHubComment)
    (h : ∀ x ∈ comments, strIncludes x.body BOT_COMMENT_MARKER = false) :
    getLastBotPingDate comments = none := by
  unfold getLastBotPingDate
  rw [show comments.reverse = comments.reverse ++ [] by simp]
  rw [find?_append_none _ comments.reverse []
        (fun x hx => h x (List.mem_reverse.mp hx))]
  rfl

/-! ## Claim C3 -/

/-- C3: whenever the comment list contains a marker comment and the most
recent one (no later comment carries the marker) is strictly fewer than
`pingCooldownDays` days old, `analyze` suppresses both pinging and
dormant-marking, for every item and every inactivity duration. -/
theorem analyze_cooldown_suppresses
    (cfg : Config) (item : SEPItem) (now : Int)
    (pre post : List GitHubComment) (c : GitHubComment)
    (hc : strIncludes c.body BOT_COMMENT_MARKER = true)
    (hpost : ∀ x ∈ post, strIncludes x.body BOT_COMMENT_MARKER = false)
    (hrecent : daysBetween c.created_at now < cfg.pingCooldownDays) :
    (SEPAnalyzer.analyze cfg (pre ++ c :: post) now item).shouldPing = false ∧
    (SEPAnalyzer.analyze cfg (pre ++ c :: post) now item).shouldMarkDormant = false := by
  unfold SEPAnalyzer.analyze
  rw [getLastBotPingDate_split pre post c hc hpost]
  simp [hrecent]

/-- A very stale proposal item (about 1000 days of inactivity). -/
def veryStaleItem : SEPItem :=
  ⟨42, "SEP: sample", some SEPState.proposal, ["SEP", "proposal"],
    "alice", [], -(1000 * (24 * 60 * 60 * 1000)), false⟩

/-- A comment posted by the bot, containing the marker, at time 0. -/
def botPingComment : GitHubComment :=
  ⟨"<!-- sep-automation-bot -->\nFriendly reminder", some "sep-bot", 0⟩

/-- Witness for C3: at `now = 0`, a proposal inactive for 1000 days with a
marker comment 0 days old gets neither a ping nor a dormant marking. -/
theorem analyze_cooldown_suppresses_witness :
    (SEPAnalyzer.analyze defaultConfig [botPingComment] 0 veryStaleItem).shouldPing = false ∧
    (SEPAnalyzer.analyze defaultConfig [botPingComment] 0 veryStaleItem).shouldMarkDormant = false :=
  analyze_cooldown_suppresses defaultConfig veryStaleItem 0 [] [] botPingComment
    (by decide) (by intro x hx; cases hx) (by decide)

/-! ## Claim C10 -/

/-- C10: the cooldown scan keys on the marker substring alone; the
comment's author is completely arbitrary.  A comment by ANY user `u`
whose body merely contains `BOT_COMMENT_MARKER` (for instance, quoting
it), when recent enough and not followed by another marker comment,
suppresses all pinging and dormant-marking for the item. -/
theorem analyze_marker_ignores_author
    (cfg : Config) (item : SEPItem) (now t : Int) (u : Option String)
    (body : String) (pre post : List GitHubComment)
    (hb : strIncludes body BOT_COMMENT_MARKER = true)
    (hpost : ∀ x ∈ post, strIncludes x.body BOT_COMMENT_MARKER = false)
    (hrecent : daysBetween t now < cfg.pingCooldownDays) :
    (SEPAnalyzer.analyze cfg (pre ++ (⟨body, u, t⟩ : GitHubComment) :: post) now item).shouldPing = false ∧
    (SEPAnalyzer.analyze cfg (pre ++ (⟨body, u, t⟩ : GitHubComment) :: post) now item).shouldMarkDormant = false := by
  unfold SEPAnalyzer.analyze
  rw [getLastBotPingDate_split pre post ⟨body, u, t⟩ hb hpost]
  simp [hrecent]

/-- A comment by an ordinary user quoting the bot marker. -/
def quotingUserComment : GitHubComment :=
  ⟨"FYI the bot tags are like <!-- sep-automation-bot --> in source",
    some "random-user", 0⟩

/-- Witness for C10: the quoting comment by `random-user` at age 0 days
suppresses action on a proposal that is 1000 days inactive. -/
theorem analyze_marker_ignores_author_witness :
    (SEPAnalyzer.analyze defaultConfig [quotingUserComment] 0 veryStaleItem).shouldPing = false ∧
    (SEPAnalyzer.analyze defaultConfig [quotingUserComment] 0 veryStaleItem).shouldMarkDormant = false :=
  analyze_marker_ignores_author defaultConfig veryStaleItem 0 0
    (some "random-user")
    "FYI the bot tags are like <!-- sep-automation-bot --> in source"
    [] [] (by decide) (by intro x hx; cases hx) (by decide)

/-! ## Claim C4 -/

/-- C4: a proposal with no cooldown-triggering bot comment, under the
default configuration, is marked dormant and closed at exactly 180 days
of inactivity, is left alone at 179 days, and gets an author ping at any
inactivity in [90, 180). -/
theorem analyze_proposal_default_thresholds
    (item : SEPItem) (now : Int) (comments : List GitHubComment)
    (hstate : item.state = some SEPState.proposal)
    (hnocool : ∀ t, getLastBotPingDate comments = some t →
        defaultConfig.pingCooldownDays ≤ daysBetween t now) :
    (daysBetween item.updatedAt now = 180 →
      (SEPAnalyzer.analyze defaultConfig comments now item).shouldMarkDormant = true ∧
      (SEPAnalyzer.analyze defaultConfig comments now item).shouldClose = true) ∧
    (daysBetween item.updatedAt now = 179 →
      (SEPAnalyzer.analyze defaultConfig comments now item).shouldMarkDormant = false ∧
      (SEPAnalyzer.analyze defaultConfig comments now item).shouldClose = false) ∧
    (90 ≤ daysBetween item.updatedAt now → daysBetween item.updatedAt now < 180 →
      (SEPAnalyzer.analyze defaultConfig comments now item).shouldPing = true ∧
      (SEPAnalyzer.analyze defaultConfig comments now item).pingTarget = some PingTarget.author) := by
  have hmain : SEPAnalyzer.analyze defaultConfig comments now item =
      SEPAnalyzer.analyzeProposal defaultConfig item (daysBetween item.updatedAt now) := by
    unfold SEPAnalyzer.analyze
    cases hg : getLastBotPingDate comments with
    | none => simp [SEPAnalyzer.analyzeState, hstate]
    | some t =>
      have hle := hnocool t hg
      have : ¬ (daysBetween t now < defaultConfig.pingCooldownDays) := not_lt.mpr hle
      simp [this, SEPAnalyzer.analyzeState, hstate]
  rw [hmain]
  unfold SEPAnalyzer.analyzeProposal
  refine ⟨fun h180 => ?_, fun h179 => ?_, fun h90 hlt => ?_⟩
  · rw [if_pos (by rw [h180]; decide)]
    exact ⟨rfl, rfl⟩
  · rw [if_neg (by rw [h179]; decide), if_pos (by rw [h179]; decide)]
    exact ⟨rfl, rfl⟩
  · rw [if_neg (by simp [defaultConfig]; omega), if_pos (by simp [defaultConfig]; omega)]
    exact ⟨rfl, rfl⟩

/-- A proposal item last updated at time 0 with no comments at all. -/
def quietProposalItem : SEPItem :=
  ⟨7, "SEP: quiet", some SEPState.proposal, ["SEP", "proposal"],
    "bob", [], 0, false⟩

/-- Witness for C4: with `now` at exactly 180 days, the quiet proposal is
marked dormant and closed; at 179 days neither; at 95 days it gets an
author ping. -/
theorem analyze_proposal_default_thresholds_witness :
    ((SEPAnalyzer.analyze defaultConfig [] (180 * (24 * 60 * 60 * 1000)) quietProposalItem).shouldMarkDormant = true ∧
     (SEPAnalyzer.analyze defaultConfig [] (180 * (24 * 60 * 60 * 1000)) quietProposalItem).shouldClose = true) ∧
    ((SEPAnalyzer.analyze defaultConfig [] (179 * (24 * 60 * 60 * 1000)) quietProposalItem).shouldMarkDormant = false ∧
     (SEPAnalyzer.analyze defaultConfig [] (179 * (24 * 60 * 60 * 1000)) quietProposalItem).shouldClose = false) ∧
    ((SEPAnalyzer.analyze defaultConfig [] (95 * (24 * 60 * 60 * 1000)) quietProposalItem).shouldPing = true ∧
     (SEPAnalyzer.analyze defaultConfig [] (95 * (24 * 60 * 60 * 1000)) quietProposalItem).pingTarget = some PingTarget.author) := by
  refine ⟨?_, ?_, ?_⟩
  · exact (analyze_proposal_default_thresholds quietProposalItem
      (180 * (24 * 60 * 60 * 1000)) [] rfl
      (by intro t ht; simp [getLastBotPingDate] at ht)).1 (by decide)
  · exact (analyze_proposal_default_thresholds quietProposalItem
      (179 * (24 * 60 * 60 * 1000)) [] rfl
      (by intro t ht; simp [getLastBotPingDate] at ht)).2.1 (by decide)
  · exact (analyze_proposal_default_thresholds quietProposalItem
      (95 * (24 * 60 * 60 * 1000)) [] rfl
      (by intro t ht; simp [getLastBotPingDate] at ht)).2.2 (by decide) (by decide)

/-! ## Actions and the GitHub mutation model (src/types.ts, src/github/client.ts) -/

/-- `ActionType` (src/types.ts). -/
inductive ActionType where
  | transition
  | pingAuthor
  | pingSponsor
  | pingMaintainer
  | needsSponsor
  | markDormant
  | close
deriving DecidableEq, Repr

/-- `SEPAction` (src/types.ts). -/
structure SEPAction where
  type : ActionType
  item : SEPItem
  targetUser : Option String
  fromState : Option SEPState
  toState : Option SEPState
  reason : String
  dryRun : Bool
deriving DecidableEq, Repr

/-- `ActionResult` (src/types.ts). -/
structure ActionResult where
  action : SEPAction
  success : Bool
  error : Option String
  commentUrl : Option String
deriving DecidableEq, Repr

/-- A mutation call issued through the GitHub client, in issue order. -/
inductive GitHubOp where
  | removeLabel (issue : Int) (label : String)
  | addLabels (issue : Int) (labels : List String)
  | addComment (issue : Int) (body : String)
  | closeIssue (issue : Int)
deriving DecidableEq, Repr

/-- The remote side of the client-level mutation calls: for each call the
environment decides whether it returns normally or throws (with the
message `getErrorMessage` would extract).  `addComment` returns the
comment URL on success. -/
structure GitHubEnv where
  removeLabelResp : Int → String → Except String Unit
  addLabelsResp : Int → List String → Except String Unit
  addCommentResp : Int → String → Except String String
  closeIssueResp : Int → Except String Unit

/-- An environment in which every mutation call succeeds. -/
def okEnv : GitHubEnv :=
  ⟨fun _ _ => Except.ok (),
   fun _ _ => Except.ok (),
   fun _ _ => Except.ok "https://github.com/comment/1",
   fun _ => Except.ok ()⟩

/-! ## Comment templates (src/actions/comment.ts) -/

/-- Tail line shared by every template. -/
def botFooter : String :=
  "\n\n---\n*This is an automated message from the SEP lifecycle bot.*"

/-- `createTransitionComment`. -/
def createTransitionComment (item : SEPItem) (fromState toState : String)
    (sponsor : String) : String :=
  BOT_COMMENT_MARKER ++ "\n\n## State Transition: " ++ fromState ++ " → " ++ toState ++
    "\n\nThis SEP has been transitioned from **" ++ fromState ++ "** to **" ++ toState ++ "**.\n\n" ++
    (if toState == "draft" then "@" ++ sponsor ++ " has been assigned as the sponsor for this SEP." else "") ++
    botFooter

/-- `createAuthorPingComment`. -/
def createAuthorPingComment (item : SEPItem) (daysSinceActivity : Int) : String :=
  BOT_COMMENT_MARKER ++ "\n\n## Friendly Reminder\n\nHi @" ++ item.author ++
    s!"!\n\nThis SEP proposal has been inactive for **{daysSinceActivity} days**." ++
    botFooter

/-- `createSponsorPingComment`. -/
def createSponsorPingComment (item : SEPItem) (sponsor : String)
    (daysSinceActivity : Int) : String :=
  BOT_COMMENT_MARKER ++ "\n\n## Sponsor Check-in\n\nHi @" ++ sponsor ++
    s!"!\n\nThis SEP draft has been inactive for **{daysSinceActivity} days**." ++
    botFooter

/-- `createMaintainerPingComment`. -/
def createMaintainerPingComment (item : SEPItem) (maintainer : String)
    (daysSinceActivity : Int) : String :=
  BOT_COMMENT_MARKER ++ "\n\n## Maintainer Activity Check\n\nHi @" ++ maintainer ++
    s!"!\n\nNo activity from you in **{daysSinceActivity} days**." ++
    botFooter

/-- `createDormantComment`. -/
def createDormantComment (item : SEPItem) (daysSinceActivity : Int) : String :=
  BOT_COMMENT_MARKER ++
    s!"\n\n## Marking as Dormant\n\nThis SEP proposal has been inactive for **{daysSinceActivity} days** and is being marked as **dormant**." ++
    botFooter

/-- `createNeedsSponsorComment`. -/
def createNeedsSponsorComment (item : SEPItem) (daysSinceActivity : Int) : String :=
  BOT_COMMENT_MARKER ++
    s!"\n\n## Core Maintainer Sponsor Needed\n\nThis SEP draft has been inactive for **{daysSinceActivity} days** and has no core maintainer sponsor.\n\n**Current assignees**: " ++
    (if item.assignees.isEmpty then "None"
     else String.intercalate ", " (item.assignees.map (fun a => "@" ++ a))) ++
    botFooter

/-- `createAcceptedReminderComment`. -/
def createAcceptedReminderComment (item : SEPItem) (daysSinceActivity : Int) : String :=
  BOT_COMMENT_MARKER ++ "\n\n## Reference Implementation Reminder\n\nHi @" ++ item.author ++
    s!"!\n\nThis SEP was accepted **{daysSinceActivity} days ago**." ++
    botFooter

/-! ## Maintainer resolver (second document in src/hooks/discord.ts,
lines 171-334: the `MaintainerResolver` class) -/

/-- `SPONSOR_TEAMS` (discord.ts document 2, lines 182-192): subteams of
steering-committee whose members can sponsor SEPs. -/
def SPONSOR_TEAMS : List String :=
  ["core-maintainers", "moderators", "working-groups", "interest-groups",
   "sdk-maintainers", "inspector-maintainers", "mcpb-maintainers",
   "docs-maintainers", "lead-maintainers"]

/-- `FALLBACK_SPONSORS` (discord.ts document 2, lines 202-226): the
static sponsor list used when the Teams API is not accessible. -/
def FALLBACK_SPONSORS : List String :=
  ["jspahrsummers", "pcarleton", "CaitieM20", "pwwpche", "kurtisvg",
   "localden", "nickcoai", "000-000-000-000-000", "dsp-ant", "bhosmer-ant",
   "jonathanhefner", "cliffhall", "evalstate", "tadasant", "maheshmurag",
   "olaservo", "jerome3o-anthropic",
   "toby", "aaronpk", "felixweinberger", "domdomegg", "rdimitrov",
   "an-dustin", "LucaButBoring", "D-McAdams", "jenn-newton", "og-ant", "petery-ant",
   "sambhav", "PederHP",
   "mattt", "koic", "michaelneale", "fabpot", "atesgoral", "halter73",
   "nicolas-grekas", "markpollack", "ochafik", "stallent", "ignatov",
   "alexhancock", "KKonstantinov", "ansaba", "pronskiy", "Nyholm",
   "tzolov", "kpavlov", "topherbullock", "movetz", "chemicL", "stephentoub",
   "eiriktsarpalis", "chr-hertel", "maciej-kisiel", "e5l", "jamadeo",
   "felixrieseberg", "MarshallOfSound", "asklar", "joan-anthropic",
   "ihrpr", "a-akimov"]

/-- `Set.prototype.add`: append a member unless it is already present. -/
def addMember (acc : List String) (m : String) : List String :=
  if acc.contains m then acc else acc ++ [m]

/-- `MaintainerResolver.ensureSponsorsLoaded` (discord.ts document 2,
lines 245-297), given the `getTeamMembers` response per team slug: union
the member lists of all sponsor teams, skipping teams whose fetch
throws; a non-empty union becomes the sponsor set, an empty one falls
back to `FALLBACK_SPONSORS`.  (The `maintainerSet`/`loadAttempted`
cache fields make this run once per process; the run-visible result is
this set.) -/
def MaintainerResolver.loadedSponsors
    (teamMembersResp : String → Except String (List String)) : List String :=
  let allMembers := SPONSOR_TEAMS.foldl
    (fun acc team =>
      match teamMembersResp team with
      | Except.ok members => members.foldl addMember acc
      | Except.error _ => acc)
    []
  if allMembers.isEmpty then FALLBACK_SPONSORS else allMembers

/-- `MaintainerResolver.canSponsor` (discord.ts document 2, lines
303-306): membership of the loaded sponsor set.  `sponsorSet` is the
set `ensureSponsorsLoaded` resolved for the run (see
`MaintainerResolver.loadedSponsors`). -/
def MaintainerResolver.canSponsor (sponsorSet : List String)
    (username : String) : Bool :=
  sponsorSet.contains username

/-- `MaintainerResolver.isCoreMaintainer` (discord.ts document 2, lines
311-313): alias for `canSponsor`. -/
def MaintainerResolver.isCoreMaintainer (sponsorSet : List String)
    (username : String) : Bool :=
  MaintainerResolver.canSponsor sponsorSet username

/-- `MaintainerResolver.getSponsor` (discord.ts document 2, lines
318-325): the first assignee, in input order, for which `canSponsor`
holds, else none. -/
def MaintainerResolver.getSponsor (sponsorSet : List String)
    (assignees : List String) : Option String :=
  assignees.find? (fun a => MaintainerResolver.canSponsor sponsorSet a)

/-! ## Ping handler (src/actions/ping.ts) -/

/-- `PingHandler.createAction`: builds a `SEPAction` with no
from/to-state. -/
def PingHandler.createAction (type : ActionType) (item : SEPItem)
    (dryRun : Bool) (reason : String) (targetUser : Option String) : SEPAction :=
  ⟨type, item, targetUser, none, none, reason, dryRun⟩

/-- The mutation sequence of `PingHandler.markDormant` after validation
and the dry-run gate: remove the current state label (when present and
not already `dormant`), add the `dormant` label, post the dormant
comment, close when requested — strictly in that order, stopping at the
first call that throws (the surrounding `try` turns the throw into a
failure result). -/
def PingHandler.markDormantPerform (env : GitHubEnv) (item : SEPItem)
    (daysSinceActivity : Int) (shouldClose : Bool) (action : SEPAction) :
    ActionResult × List GitHubOp :=
  let removeStep : List GitHubOp × Option String :=
    match item.state with
    | some s =>
      if s ≠ SEPState.dormant then
        match env.removeLabelResp item.number (stateLabel s) with
        | Except.ok _ => ([GitHubOp.removeLabel item.number (stateLabel s)], none)
        | Except.error e => ([GitHubOp.removeLabel item.number (stateLabel s)], some e)
      else ([], none)
    | none => ([], none)
  match removeStep with
  | (ops, some e) => (⟨action, false, some e, none⟩, ops)
  | (ops1, none) =>
    let addOp := GitHubOp.addLabels item.number ["dormant"]
    match env.addLabelsResp item.number ["dormant"] with
    | Except.error e => (⟨action, false, some e, none⟩, ops1 ++ [addOp])
    | Except.ok _ =>
      let body := createDormantComment item daysSinceActivity
      let commentOp := GitHubOp.addComment item.number body
      match env.addCommentResp item.number body with
      | Except.error e => (⟨action, false, some e, none⟩, ops1 ++ [addOp, commentOp])
      | Except.ok url =>
        if shouldClose then
          match env.closeIssueResp item.number with
          | Except.error e =>
            (⟨action, false, some e, none⟩,
              ops1 ++ [addOp, commentOp, GitHubOp.closeIssue item.number])
          | Except.ok _ =>
            (⟨action, true, none, some url⟩,
              ops1 ++ [addOp, commentOp, GitHubOp.closeIssue item.number])
        else (⟨action, true, none, some url⟩, ops1 ++ [addOp, commentOp])

/-- `PingHandler.markDormant`: re-validate that `dormant` is a legal
target from the item's current state; on an illegal transition abort
without mutating labels; under dry-run report success without mutating;
otherwise perform the mutation sequence. -/
def PingHandler.markDormant (env : GitHubEnv) (item : SEPItem)
    (daysSinceActivity : Int) (shouldClose : Bool) (dryRun : Bool) :
    ActionResult × List GitHubOp :=
  let action := PingHandler.createAction ActionType.markDormant item dryRun
    s!"Marking dormant after {daysSinceActivity} days of inactivity" none
  let invalidity : Option String :=
    match item.state with
    | some s =>
      if (STATE_TRANSITIONS s).contains SEPState.dormant then none
      else some ("Invalid transition: " ++ stateLabel s ++ " → dormant. Valid targets: " ++
        String.intercalate ", " ((STATE_TRANSITIONS s).map stateLabel))
    | none => none
  match invalidity with
  | some err => (⟨action, false, some err, none⟩, [])
  | none =>
    if dryRun then (⟨action, true, none, none⟩, [])
    else PingHandler.markDormantPerform env item daysSinceActivity shouldClose action

/-- `PingHandler.pingAuthor`. -/
def PingHandler.pingAuthor (env : GitHubEnv) (item : SEPItem)
    (daysSinceActivity : Int) (dryRun : Bool) : ActionResult × List GitHubOp :=
  let action := PingHandler.createAction ActionType.pingAuthor item dryRun
    s!"Author ping after {daysSinceActivity} days of inactivity" (some item.author)
  if dryRun then (⟨action, true, none, none⟩, [])
  else
    let body :=
      if item.state == some SEPState.accepted then
        createAcceptedReminderComment item daysSinceActivity
      else createAuthorPingComment item daysSinceActivity
    match env.addCommentResp item.number body with
    | Except.ok url => (⟨action, true, none, some url⟩, [GitHubOp.addComment item.number body])
    | Except.error e => (⟨action, false, some e, none⟩, [GitHubOp.addComment item.number body])

/-- `PingHandler.postNeedsSponsor`. -/
def PingHandler.postNeedsSponsor (env : GitHubEnv) (item : SEPItem)
    (daysSinceActivity : Int) (dryRun : Bool) : ActionResult × List GitHubOp :=
  let action := PingHandler.createAction ActionType.needsSponsor item dryRun
    s!"Draft SEP needs core maintainer sponsor ({daysSinceActivity} days inactive)" none
  if dryRun then (⟨action, true, none, none⟩, [])
  else
    let body := createNeedsSponsorComment item daysSinceActivity
    match env.addCommentResp item.number body with
    | Except.ok url => (⟨action, true, none, some url⟩, [GitHubOp.addComment item.number body])
    | Except.error e => (⟨action, false, some e, none⟩, [GitHubOp.addComment item.number body])

/-- `PingHandler.pingSponsor`: resolve the first sponsor-eligible
assignee; with none, fall back to a needs-sponsor comment. -/
def PingHandler.pingSponsor (env : GitHubEnv) (sponsorSet : List String)
    (item : SEPItem) (daysSinceActivity : Int) (dryRun : Bool) :
    ActionResult × List GitHubOp :=
  match MaintainerResolver.getSponsor sponsorSet item.assignees with
  | none => PingHandler.postNeedsSponsor env item daysSinceActivity dryRun
  | some sponsor =>
    let action := PingHandler.createAction ActionType.pingSponsor item dryRun
      s!"Sponsor ping after {daysSinceActivity} days of inactivity" (some sponsor)
    if dryRun then (⟨action, true, none, none⟩, [])
    else
      let body := createSponsorPingComment item sponsor daysSinceActivity
      match env.addCommentResp item.number body with
      | Except.ok url => (⟨action, true, none, some url⟩, [GitHubOp.addComment item.number body])
      | Except.error e => (⟨action, false, some e, none⟩, [GitHubOp.addComment item.number body])

/-- `PingHandler.pingMaintainerDirectly`. -/
def PingHandler.pingMaintainerDirectly (env : GitHubEnv) (item : SEPItem)
    (maintainer : String) (daysSinceActivity : Int) (dryRun : Bool) :
    ActionResult × List GitHubOp :=
  let action := PingHandler.createAction ActionType.pingMaintainer item dryRun
    s!"Maintainer ping after {daysSinceActivity} days of inactivity" (some maintainer)
  if dryRun then (⟨action, true, none, none⟩, [])
  else
    let body := createMaintainerPingComment item maintainer daysSinceActivity
    match env.addCommentResp item.number body with
    | Except.ok url => (⟨action, true, none, some url⟩, [GitHubOp.addComment item.number body])
    | Except.error e => (⟨action, false, some e, none⟩, [GitHubOp.addComment item.number body])

/-- `PingHandler.pingMaintainer`: resolve a sponsor among the assignees;
with none, fail with "No maintainer assigned" (even in dry-run). -/
def PingHandler.pingMaintainer (env : GitHubEnv) (sponsorSet : List String)
    (item : SEPItem) (daysSinceActivity : Int) (dryRun : Bool) :
    ActionResult × List GitHubOp :=
  match MaintainerResolver.getSponsor sponsorSet item.assignees with
  | none =>
    (⟨PingHandler.createAction ActionType.pingMaintainer item dryRun "No maintainer found" none,
      false, some "No maintainer assigned", none⟩, [])
  | some sponsor => PingHandler.pingMaintainerDirectly env item sponsor daysSinceActivity dryRun

/-- `PingHandler.executePing` (src/actions/ping.ts): dormant case first,
then dispatch on the ping target. -/
def PingHandler.executePing (env : GitHubEnv) (sponsorSet : List String)
    (analysis : StaleAnalysis) (dryRun : Bool) : ActionResult × List GitHubOp :=
  if analysis.shouldMarkDormant then
    PingHandler.markDormant env analysis.item analysis.daysSinceActivity
      analysis.shouldClose dryRun
  else
    match analysis.pingTarget with
    | none =>
      (⟨PingHandler.createAction ActionType.pingAuthor analysis.item dryRun "No ping target" none,
        true, none, none⟩, [])
    | some PingTarget.author =>
      PingHandler.pingAuthor env analysis.item analysis.daysSinceActivity dryRun
    | some PingTarget.sponsor =>
      PingHandler.pingSponsor env sponsorSet analysis.item analysis.daysSinceActivity dryRun
    | some PingTarget.maintainer =>
      PingHandler.pingMaintainer env sponsorSet analysis.item analysis.daysSinceActivity dryRun

/-! ## Transition handler (src/actions/transition.ts) -/

/-- The label for a possibly-absent state as interpolated into the
validation diagnostic (`null` prints as "null" in the template). -/
def stateOrNoneLabel : Option SEPState → String
  | some s => stateLabel s
  | none => "none"

/-- `TransitionHandler.validateTransition`: valid iff
`isValidTransition`; the diagnostic names the invalid edge and the legal
target set. -/
def TransitionHandler.validateTransition (fromState : Option SEPState)
    (toState : SEPState) : Bool × String :=
  if isValidTransition fromState toState then
    (true, if fromState.isSome then "Valid transition" else "Initial state assignment")
  else
    let validTargets := match fromState with
      | some s => STATE_TRANSITIONS s
      | none => []
    (false, "Invalid transition: " ++ stateOrNoneLabel fromState ++ " → " ++ stateLabel toState ++
      ". Valid targets: " ++ String.intercalate ", " (validTargets.map stateLabel))

/-- The mutation sequence of `TransitionHandler.executeTransition` after
validation and the dry-run gate: remove the old state label (when
present), add the new state label, post the transition comment. -/
def TransitionHandler.performTransition (env : GitHubEnv) (item : SEPItem)
    (toState : SEPState) (sponsor : String) (action : SEPAction) :
    ActionResult × List GitHubOp :=
  let removeStep : List GitHubOp × Option String :=
    match item.state with
    | some s =>
      match env.removeLabelResp item.number (stateLabel s) with
      | Except.ok _ => ([GitHubOp.removeLabel item.number (stateLabel s)], none)
      | Except.error e => ([GitHubOp.removeLabel item.number (stateLabel s)], some e)
    | none => ([], none)
  match removeStep with
  | (ops, some e) => (⟨action, false, some e, none⟩, ops)
  | (ops1, none) =>
    let addOp := GitHubOp.addLabels item.number [stateLabel toState]
    match env.addLabelsResp item.number [stateLabel toState] with
    | Except.error e => (⟨action, false, some e, none⟩, ops1 ++ [addOp])
    | Except.ok _ =>
      let body := createTransitionComment item (stateOrNoneLabel item.state)
        (stateLabel toState) sponsor
      let commentOp := GitHubOp.addComment item.number body
      match env.addCommentResp item.number body with
      | Except.error e => (⟨action, false, some e, none⟩, ops1 ++ [addOp, commentOp])
      | Except.ok url => (⟨action, true, none, some url⟩, ops1 ++ [addOp, commentOp])

/-- `TransitionHandler.executeTransition` (src/actions/transition.ts):
validate the edge when a current state exists (invalid transitions fail
without side effects); dry-run reports success without mutating;
otherwise perform the mutations in order. -/
def TransitionHandler.executeTransition (env : GitHubEnv) (item : SEPItem)
    (toState : SEPState) (sponsor : String) (dryRun : Bool) :
    ActionResult × List GitHubOp :=
  let fromLbl := stateOrNoneLabel item.state
  let toLbl := stateLabel toState
  let action : SEPAction :=
    ⟨ActionType.transition, item, some sponsor, item.state, some toState,
      s!"Transitioning from {fromLbl} to {toLbl}", dryRun⟩
  let validated : Option String :=
    match item.state with
    | some s =>
      let validation := TransitionHandler.validateTransition (some s) toState
      if validation.1 then none else some validation.2
    | none => none
  match validated with
  | some err => (⟨action, false, some err, none⟩, [])
  | none =>
    if dryRun then (⟨action, true, none, none⟩, [])
    else TransitionHandler.performTransition env item toState sponsor action

/-! ## Claim C2 -/

/-- The mutation phase of a dormant marking for an item in a state other
than `dormant`: the first call removes the current state label, and when
that call returns normally the next call adds the `dormant` label. -/
theorem markDormantPerform_label_order (env : GitHubEnv) (item : SEPItem)
    (days : Int) (shouldClose : Bool) (action : SEPAction) (s : SEPState)
    (hs : item.state = some s) (hnd : s ≠ SEPState.dormant) :
    ∃ rest, (PingHandler.markDormantPerform env item days shouldClose action).2 =
        GitHubOp.removeLabel item.number (stateLabel s) :: rest ∧
      (env.removeLabelResp item.number (stateLabel s) = Except.ok () →
        rest.head? = some (GitHubOp.addLabels item.number ["dormant"])) := by
  unfold PingHandler.markDormantPerform
  simp only [hs]
  rw [if_pos hnd]
  cases hrem : env.removeLabelResp item.number (stateLabel s) with
  | error e =>
    exact ⟨[], by simp, fun hok => absurd hok (by simp)⟩
  | ok u =>
    cases hadd : env.addLabelsResp item.number ["dormant"] with
    | error e =>
      exact ⟨[GitHubOp.addLabels item.number ["dormant"]], by simp, fun _ => rfl⟩
    | ok v =>
      cases hcom : env.addCommentResp item.number (createDormantComment item days) with
      | error e =>
        exact ⟨[GitHubOp.addLabels item.number ["dormant"],
          GitHubOp.addComment item.number (createDormantComment item days)],
          by simp [hcom], fun _ => rfl⟩
      | ok url =>
        cases shouldClose with
        | false =>
          exact ⟨[GitHubOp.addLabels item.number ["dormant"],
            GitHubOp.addComment item.number (createDormantComment item days)],
            by simp [hcom], fun _ => rfl⟩
        | true =>
          cases hcl : env.closeIssueResp item.number with
          | error e =>
            exact ⟨[GitHubOp.addLabels item.number ["dormant"],
              GitHubOp.addComment item.number (createDormantComment item days),
              GitHubOp.closeIssue item.number], by simp [hcom, hcl], fun _ => rfl⟩
          | ok w =>
            exact ⟨[GitHubOp.addLabels item.number ["dormant"],
              GitHubOp.addComment item.number (createDormantComment item days),
              GitHubOp.closeIssue item.number], by simp [hcom, hcl], fun _ => rfl⟩

/-- C2: a non-dry-run dormant marking through `executePing` fails from
`final` without issuing any mutation call, and from `proposal` or
`draft` its first mutation call removes the current state label, with
the `dormant` label added immediately afterwards (when the removal
returned normally) — so the removal strictly precedes the addition. -/
theorem executePing_dormant_final_rejected_and_label_order
    (env : GitHubEnv) (sponsorSet : List String) (analysis : StaleAnalysis)
    (hD : analysis.shouldMarkDormant = true) :
    (analysis.item.state = some SEPState.final →
      (PingHandler.executePing env sponsorSet analysis false).1.success = false ∧
      (PingHandler.executePing env sponsorSet analysis false).2 = []) ∧
    (∀ s : SEPState, analysis.item.state = some s →
      (s = SEPState.proposal ∨ s = SEPState.draft) →
      ∃ rest, (PingHandler.executePing env sponsorSet analysis false).2 =
          GitHubOp.removeLabel analysis.item.number (stateLabel s) :: rest ∧
        (env.removeLabelResp analysis.item.number (stateLabel s) = Except.ok () →
          rest.head? = some (GitHubOp.addLabels analysis.item.number ["dormant"]))) := by
  unfold PingHandler.executePing
  rw [hD]
  simp only [if_pos]
  constructor
  · intro hfinal
    unfold PingHandler.markDormant
    rw [hfinal]
    exact ⟨rfl, rfl⟩
  · intro s hs hps
    have hcontains : (STATE_TRANSITIONS s).contains SEPState.dormant = true := by
      rcases hps with h | h <;> rw [h] <;> rfl
    have hnd : s ≠ SEPState.dormant := by
      rcases hps with h | h <;> rw [h] <;> intro hc <;> cases hc
    unfold PingHandler.markDormant
    simp only [hs, hcontains, if_true, Bool.false_eq_true, reduceIte]
    exact markDormantPerform_label_order env analysis.item analysis.daysSinceActivity
      analysis.shouldClose _ s hs hnd

/-- An item stuck in the terminal `final` state. -/
def finalStateItem : SEPItem :=
  ⟨9, "SEP: done", some SEPState.final, ["SEP", "final"], "carol", [], 0, false⟩

/-- An open proposal item (number 7) used as mutation-order witness. -/
def proposalStateItem : SEPItem :=
  ⟨7, "SEP: fresh", some SEPState.proposal, ["SEP", "proposal"], "dave", [], 0, false⟩

/-- A stale analysis prescribing a dormant marking for a given item. -/
def dormantAnalysis (it : SEPItem) : StaleAnalysis :=
  ⟨it, 200, false, true, true, none, some "Test"⟩

/-- Witness for C2: with every call succeeding, marking the `final` item
dormant fails with no mutation issued, and the `proposal` item's trace
starts with the removal of its `proposal` label. -/
theorem executePing_dormant_final_rejected_and_label_order_witness :
    ((PingHandler.executePing okEnv [] (dormantAnalysis finalStateItem) false).1.success = false ∧
     (PingHandler.executePing okEnv [] (dormantAnalysis finalStateItem) false).2 = []) ∧
    (PingHandler.executePing okEnv [] (dormantAnalysis proposalStateItem) false).2.head? =
      some (GitHubOp.removeLabel 7 "proposal") := by
  constructor
  · exact (executePing_dormant_final_rejected_and_label_order okEnv []
      (dormantAnalysis finalStateItem) rfl).1 rfl
  · obtain ⟨rest, hrest, -⟩ :=
      (executePing_dormant_final_rejected_and_label_order okEnv []
        (dormantAnalysis proposalStateItem) rfl).2 SEPState.proposal rfl (Or.inl rfl)
    rw [hrest]
    rfl

/-! ## Claim C6 -/

/-- C6 counterexample: the claim "every dry-run invocation returns an
ActionResult with success=true" is false — a dry-run transition out of
`final` is rejected by validation, which runs before the dry-run gate,
so it returns success=false. -/
theorem dryRun_always_success_counterexample :
    (TransitionHandler.executeTransition okEnv finalStateItem SEPState.draft
      "sponsor1" true).1.success = false := by
  rfl

/-- What a dry-run `executePing` actually reports: success unless the
independently re-checked dormant edge is illegal, or a maintainer ping
finds no sponsor-eligible assignee. -/
def dryRunPingSuccess (sponsorSet : List String) (a : StaleAnalysis) : Bool :=
  if a.shouldMarkDormant then isValidTransition a.item.state SEPState.dormant
  else
    match a.pingTarget with
    | some PingTarget.maintainer =>
      (MaintainerResolver.getSponsor sponsorSet a.item.assignees).isSome
    | _ => true

/-- C6 amended: dry-run invocations of both handlers never issue a
mutation call; a dry-run `executeTransition` reports success exactly
when the requested edge passes `isValidTransition`, and a dry-run
`executePing` reports success exactly when its own validation and
target resolution succeed (`dryRunPingSuccess`) — validation failures
return success=false even under dry-run. -/
theorem dryRun_no_mutations_success_iff_valid
    (env : GitHubEnv) (sponsorSet : List String) (item : SEPItem)
    (toState : SEPState) (sponsor : String) (analysis : StaleAnalysis) :
    (TransitionHandler.executeTransition env item toState sponsor true).2 = [] ∧
    (TransitionHandler.executeTransition env item toState sponsor true).1.success =
      isValidTransition item.state toState ∧
    (PingHandler.executePing env sponsorSet analysis true).2 = [] ∧
    (PingHandler.executePing env sponsorSet analysis true).1.success =
      dryRunPingSuccess sponsorSet analysis := by
  refine ⟨?_, ?_, ?_, ?_⟩
  · unfold TransitionHandler.executeTransition
    cases hs : item.state with
    | none => rfl
    | some s =>
      simp only [TransitionHandler.validateTransition]
      cases hv : isValidTransition (some s) toState <;> simp
  · unfold TransitionHandler.executeTransition
    cases hs : item.state with
    | none => rfl
    | some s =>
      simp only [TransitionHandler.validateTransition]
      cases hv : isValidTransition (some s) toState <;> simp [hv]
  · unfold PingHandler.executePing
    cases hd : analysis.shouldMarkDormant with
    | true =>
      simp only [if_pos]
      unfold PingHandler.markDormant
      cases hs : analysis.item.state with
      | none => rfl
      | some s =>
        by_cases hmem : SEPState.dormant ∈ STATE_TRANSITIONS s <;> simp [hmem]
    | false =>
      simp only [Bool.false_eq_true, reduceIte]
      cases ht : analysis.pingTarget with
      | none => rfl
      | some t =>
        cases t with
        | author => rfl
        | sponsor =>
          unfold PingHandler.pingSponsor
          cases hg : MaintainerResolver.getSponsor sponsorSet analysis.item.assignees <;> rfl
        | maintainer =>
          unfold PingHandler.pingMaintainer
          cases hg : MaintainerResolver.getSponsor sponsorSet analysis.item.assignees <;> rfl
  · unfold PingHandler.executePing dryRunPingSuccess
    cases hd : analysis.shouldMarkDormant with
    | true =>
      simp only [if_pos]
      unfold PingHandler.markDormant isValidTransition
      cases hs : analysis.item.state with
      | none => rfl
      | some s =>
        by_cases hmem : SEPState.dormant ∈ STATE_TRANSITIONS s <;> simp [hmem]
    | false =>
      simp only [Bool.false_eq_true, reduceIte]
      cases ht : analysis.pingTarget with
      | none => rfl
      | some t =>
        cases t with
        | author => rfl
        | sponsor =>
          unfold PingHandler.pingSponsor
          cases hg : MaintainerResolver.getSponsor sponsorSet analysis.item.assignees <;> rfl
        | maintainer =>
          unfold PingHandler.pingMaintainer
          cases hg : MaintainerResolver.getSponsor sponsorSet analysis.item.assignees <;>
            simp [PingHandler.pingMaintainerDirectly, hg]

/-! ## GitHub client 404 handling (src/github/client.ts, src/utils/errors.ts) -/

/-- A thrown remote failure: either an HTTP error carrying a `status`
field, or any other exception. -/
inductive RemoteError where
  | http (status : Int) (message : String)
  | other (message : String)
deriving DecidableEq, Repr

/-- `isHttpError` (src/utils/errors.ts): the error has a `status` field
equal to the given status. -/
def isHttpError (e : RemoteError) (status : Int) : Bool :=
  match e with
  | .http s _ => s == status
  | .other _ => false

/-- `GitHubTeamMembership.state` (src/github/types.ts). -/
inductive MembershipState where
  | active
  | pending
deriving DecidableEq, Repr

/-- `GitHubClient.removeLabel` (src/github/client.ts): forward the call;
a 404 ("label doesn't exist") is swallowed and the method returns
normally, every other throw propagates.  The raw octokit outcome is the
parameter. -/
def GitHubClient.removeLabel (apiResp : Except RemoteError Unit) :
    Except RemoteError Unit :=
  match apiResp with
  | .ok _ => .ok ()
  | .error e => if isHttpError e 404 then .ok () else .error e

/-- `GitHubClient.isTeamMember` (src/github/client.ts): on a normal
response, member iff `membership.state === 'active'`; a 404 means "not a
member" and returns false; every other throw propagates. -/
def GitHubClient.isTeamMember (apiResp : Except RemoteError MembershipState) :
    Except RemoteError Bool :=
  match apiResp with
  | .ok m => .ok (m == MembershipState.active)
  | .error e => if isHttpError e 404 then .ok false else .error e

/-! ## Claim C9 -/

/-- C9: `removeLabel` returns normally both on a normal API response and
on a 404, and propagates every other failure; `isTeamMember` returns the
active-membership flag on a normal response, returns `false` (not an
error) on a 404, and propagates every other failure. -/
theorem client_notFound_is_normal :
    (∀ u : Unit, GitHubClient.removeLabel (Except.ok u) = Except.ok ()) ∧
    (∀ msg, GitHubClient.removeLabel (Except.error (RemoteError.http 404 msg)) = Except.ok ()) ∧
    (∀ e, isHttpError e 404 = false →
      GitHubClient.removeLabel (Except.error e) = Except.error e) ∧
    (∀ m, GitHubClient.isTeamMember (Except.ok m) = Except.ok (m == MembershipState.active)) ∧
    (∀ msg, GitHubClient.isTeamMember (Except.error (RemoteError.http 404 msg)) = Except.ok false) ∧
    (∀ e, isHttpError e 404 = false →
      GitHubClient.isTeamMember (Except.error e) = Except.error e) := by
  refine ⟨fun u => rfl, fun msg => rfl, fun e he => ?_, fun m => rfl, fun msg => rfl,
    fun e he => ?_⟩
  · simp [GitHubClient.removeLabel, he]
  · simp [GitHubClient.isTeamMember, he]

/-- Witness for C9: a 500 error propagates out of both operations, while
404s are normal results. -/
theorem client_notFound_is_normal_witness :
    GitHubClient.removeLabel (Except.error (RemoteError.http 404 "Not Found")) = Except.ok () ∧
    GitHubClient.removeLabel (Except.error (RemoteError.http 500 "boom")) =
      Except.error (RemoteError.http 500 "boom") ∧
    GitHubClient.isTeamMember (Except.error (RemoteError.http 404 "Not Found")) = Except.ok false ∧
    GitHubClient.isTeamMember (Except.error (RemoteError.http 500 "boom")) =
      Except.error (RemoteError.http 500 "boom") :=
  ⟨client_notFound_is_normal.2.1 "Not Found",
   client_notFound_is_normal.2.2.1 (RemoteError.http 500 "boom") (by decide),
   client_notFound_is_normal.2.2.2.2.1 "Not Found",
   client_notFound_is_normal.2.2.2.2.2 (RemoteError.http 500 "boom") (by decide)⟩

/-! ## Detector (src/sep/detector.ts) -/

/-- `GitHubIssue` (src/github/types.ts), restricted to the fields the
embedded functions read; `isClosedState` stands for
`state === 'closed'`. -/
structure GitHubIssue where
  number : Int
  title : String
  labels : List String
  user : Option String
  assignees : List String
  updated_at : Int
  isClosedState : Bool
deriving DecidableEq, Repr

/-- `SEPDetector.toSEPItem`: derive the lifecycle state from the labels,
defaulting the author to "unknown". -/
def toSEPItem (i : GitHubIssue) : SEPItem :=
  ⟨i.number, i.title, extractState i.labels, i.labels,
    i.user.getD "unknown", i.assignees, i.updated_at, i.isClosedState⟩

/-- JavaScript `Map.prototype.set` on an insertion-ordered association
list keyed by issue number: an existing key has its value replaced in
place, a new key is appended. -/
def mapSet (m : List (Int × GitHubIssue)) (k : Int) (v : GitHubIssue) :
    List (Int × GitHubIssue) :=
  if m.any (fun p => p.1 == k) then
    m.map (fun p => if p.1 == k then (k, v) else p)
  else m ++ [(k, v)]

/-- The `new Map(); for (const item of [...labeledItems, ...titledItems])
allItems.set(item.number, item)` loop of `findAllSEPs`. -/
def buildIssueMap (items : List GitHubIssue) : List (Int × GitHubIssue) :=
  items.foldl (fun m i => mapSet m i.number i) []

/-- `SEPDetector.findAllSEPs` (src/sep/detector.ts), given the two search
responses: merge, de-duplicate by number (last write wins), convert. -/
def SEPDetector.findAllSEPs (labeledItems titledItems : List GitHubIssue) :
    List SEPItem :=
  (buildIssueMap (labeledItems ++ titledItems)).map (fun p => toSEPItem p.2)

/-! ## Claim C8 -/

/-- Keys of `mapSet`: unchanged when the key is already present, the key
appended otherwise. -/
theorem mapSet_keys (m : List (Int × GitHubIssue)) (k : Int) (v : GitHubIssue) :
    (mapSet m k v).map Prod.fst =
      if k ∈ m.map Prod.fst then m.map Prod.fst else m.map Prod.fst ++ [k] := by
  unfold mapSet
  by_cases h : k ∈ m.map Prod.fst
  · have hany : m.any (fun p => p.1 == k) = true := by
      rw [List.any_eq_true]
      obtain ⟨p, hp, hpk⟩ := List.mem_map.mp h
      exact ⟨p, hp, by simp [hpk]⟩
    rw [if_pos hany, if_pos h, List.map_map]
    apply List.map_congr_left
    intro p hp
    by_cases hpk : p.1 = k
    · simp [hpk]
    · simp [hpk]
  · have hany : m.any (fun p => p.1 == k) = false := by
      rw [Bool.eq_false_iff]
      intro hc
      rw [List.any_eq_true] at hc
      obtain ⟨p, hp, hpk⟩ := hc
      exact h (List.mem_map.mpr ⟨p, hp, by simpa using hpk⟩)
    rw [if_neg (by simp [hany]), if_neg h]
    simp

/-- Every entry of `mapSet m k v` is keyed by its value's issue number,
provided the inserted pair and the existing entries are. -/
theorem mapSet_keyed (m : List (Int × GitHubIssue)) (k : Int) (v : GitHubIssue)
    (hv : v.number = k) (hm : ∀ p ∈ m, p.1 = p.2.number) :
    ∀ p ∈ mapSet m k v, p.1 = p.2.number := by
  unfold mapSet
  intro p hp
  split at hp
  · obtain ⟨q, hq, hqp⟩ := List.mem_map.mp hp
    by_cases hqk : q.1 = k
    · rw [if_pos (by simp [hqk])] at hqp
      rw [← hqp]
      exact hv.symm
    · rw [if_neg (by simp [hqk])] at hqp
      rw [← hqp]
      exact hm q hq
  · rcases List.mem_append.mp hp with hq | hq
    · exact hm p hq
    · rw [List.mem_singleton.mp hq]
      exact hv.symm

/-- The `Map.set` fold of `findAllSEPs`, for an arbitrary starting map:
entries stay keyed by their value's number, the keys stay duplicate-free,
and the key set is the union of the starting keys and the processed
numbers. -/
theorem buildIssueMap_fold (items : List GitHubIssue)
    (m : List (Int × GitHubIssue))
    (hinv : ∀ p ∈ m, p.1 = p.2.number)
    (hnd : (m.map Prod.fst).Nodup) :
    (∀ p ∈ items.foldl (fun acc i => mapSet acc i.number i) m, p.1 = p.2.number) ∧
    ((items.foldl (fun acc i => mapSet acc i.number i) m).map Prod.fst).Nodup ∧
    (∀ n, n ∈ (items.foldl (fun acc i => mapSet acc i.number i) m).map Prod.fst ↔
      n ∈ m.map Prod.fst ∨ n ∈ items.map GitHubIssue.number) := by
  induction items generalizing m with
  | nil =>
    simp only [List.foldl_nil, List.map_nil]
    exact ⟨hinv, hnd, fun n => by simp⟩
  | cons i rest ih =>
    simp only [List.foldl_cons]
    have hinv' := mapSet_keyed m i.number i rfl hinv
    have hnd' : ((mapSet m i.number i).map Prod.fst).Nodup := by
      rw [mapSet_keys]
      by_cases h : i.number ∈ m.map Prod.fst
      · rw [if_pos h]
        exact hnd
      · rw [if_neg h]
        simp [List.nodup_append, hnd, h]
    obtain ⟨a, b, c⟩ := ih (mapSet m i.number i) hinv' hnd'
    refine ⟨a, b, fun n => ?_⟩
    rw [c n]
    have hk : n ∈ (mapSet m i.number i).map Prod.fst ↔
        n ∈ m.map Prod.fst ∨ n = i.number := by
      rw [mapSet_keys]
      by_cases h : i.number ∈ m.map Prod.fst
      · rw [if_pos h]
        constructor
        · exact Or.inl
        · rintro (hn | rfl)
          · exact hn
          · exact h
      · rw [if_neg h]
        simp
    rw [hk]
    simp only [List.map_cons, List.mem_cons]
    tauto

/-- C8: every issue number occurring in either search response appears
exactly once among the numbers of `findAllSEPs`' result, and no other
number appears. -/
theorem findAllSEPs_dedup (labeledItems titledItems : List GitHubIssue) :
    (∀ n, n ∈ (labeledItems ++ titledItems).map GitHubIssue.number →
      ((SEPDetector.findAllSEPs labeledItems titledItems).map SEPItem.number).count n = 1) ∧
    (∀ n, n ∈ (SEPDetector.findAllSEPs labeledItems titledItems).map SEPItem.number →
      n ∈ (labeledItems ++ titledItems).map GitHubIssue.number) := by
  obtain ⟨hinv, hnd, hmem⟩ :=
    buildIssueMap_fold (labeledItems ++ titledItems) [] (by simp) (by simp)
  have hkeys : (SEPDetector.findAllSEPs labeledItems titledItems).map SEPItem.number =
      (buildIssueMap (labeledItems ++ titledItems)).map Prod.fst := by
    unfold SEPDetector.findAllSEPs
    rw [List.map_map]
    apply List.map_congr_left
    intro p hp
    exact (hinv p hp).symm
  constructor
  · intro n hn
    rw [hkeys]
    exact List.count_eq_one_of_mem hnd ((hmem n).mpr (Or.inr hn))
  · intro n hn
    rw [hkeys] at hn
    rcases (hmem n).mp hn with h | h
    · simp at h
    · exact h

/-- Issue number 5, carrying the SEP label. -/
def issueFive : GitHubIssue :=
  ⟨5, "SEP: five", ["SEP"], some "erin", [], 0, false⟩

/-- Issue number 5 again, as the title search returns it. -/
def issueFiveAgain : GitHubIssue :=
  ⟨5, "SEP: five", ["SEP"], some "erin", [], 0, false⟩

/-- Issue number 6, found by title only. -/
def issueSix : GitHubIssue :=
  ⟨6, "A SEP without label", [], some "frank", [], 0, false⟩

/-- Witness for C8: issue 5 matched by both searches appears exactly once
in the merged result, and so does issue 6. -/
theorem findAllSEPs_dedup_witness :
    ((SEPDetector.findAllSEPs [issueFive] [issueFiveAgain, issueSix]).map SEPItem.number).count 5 = 1 ∧
    ((SEPDetector.findAllSEPs [issueFive] [issueFiveAgain, issueSix]).map SEPItem.number).count 6 = 1 :=
  ⟨(findAllSEPs_dedup [issueFive] [issueFiveAgain, issueSix]).1 5 (by decide),
   (findAllSEPs_dedup [issueFive] [issueFiveAgain, issueSix]).1 6 (by decide)⟩

/-! ## Processor (src/processor.ts) -/

/-- A row of `SummaryData.transitions`. -/
structure TransitionRow where
  item : SEPItem
  fromState : Option SEPState
  toState : SEPState
  sponsor : String
deriving DecidableEq, Repr

/-- A row of `SummaryData.pings`. -/
structure PingRow where
  item : SEPItem
  pingTarget : PingTarget
  targetUser : String
  daysSinceActivity : Int
deriving DecidableEq, Repr

/-- A row of `SummaryData.needsSponsor`. -/
structure NeedsSponsorRow where
  item : SEPItem
  daysSinceActivity : Int
deriving DecidableEq, Repr

/-- A row of `SummaryData.dormant`. -/
structure DormantRow where
  item : SEPItem
  daysSinceActivity : Int
  wasClosed : Bool
deriving DecidableEq, Repr

/-- `SummaryData` (src/processor.ts). -/
structure SummaryData where
  transitions : List TransitionRow
  pings : List PingRow
  needsSponsor : List NeedsSponsorRow
  dormant : List DormantRow
deriving DecidableEq, Repr

/-- The freshly initialized summary at the top of `process`. -/
def emptySummary : SummaryData := ⟨[], [], [], []⟩

/-- The phases `process` actually performs on one item, in order. -/
inductive ProcStep where
  | autoTransition (toState : SEPState)
  | stalenessAnalysis
  | stalenessAction
  | maintainerPing (user : String)
deriving DecidableEq, Repr

/-- `SEPProcessor.checkAutoTransition`: a `proposal` with at least one
assignee and a resolvable sponsor is transitioned to `draft`. -/
def SEPProcessor.checkAutoTransition (cfg : Config) (sponsorSet : List String)
    (env : GitHubEnv) (sep : SEPItem) : Option (ActionResult × List GitHubOp) :=
  if !(sep.state == some SEPState.proposal) || sep.assignees.isEmpty then none
  else
    match MaintainerResolver.getSponsor sponsorSet sep.assignees with
    | none => none
    | some sponsor =>
      some (TransitionHandler.executeTransition env sep SEPState.draft sponsor cfg.dryRun)

/-- `SEPProcessor.checkStaleness`: run the analysis; act only when it
prescribes a ping or a dormant marking. -/
def SEPProcessor.checkStaleness (cfg : Config) (sponsorSet : List String)
    (env : GitHubEnv) (comments : List GitHubComment) (now : Int)
    (sep : SEPItem) : Option (ActionResult × List GitHubOp) :=
  let analysis := SEPAnalyzer.analyze cfg comments now sep
  if !analysis.shouldPing && !analysis.shouldMarkDormant then none
  else some (PingHandler.executePing env sponsorSet analysis cfg.dryRun)

/-- The assignee loop of `SEPProcessor.checkMaintainerAccountability`:
ping each verified core maintainer who is personally inactive. -/
def SEPProcessor.maintainerLoop (cfg : Config) (sponsorSet : List String)
    (env : GitHubEnv) (events : List GitHubEvent)
    (comments : List GitHubComment) (now : Int) (sep : SEPItem) :
    List String → List ActionResult
  | [] => []
  | assignee :: rest =>
    if MaintainerResolver.isCoreMaintainer sponsorSet assignee then
      let activity := SEPAnalyzer.checkMaintainerActivity cfg events comments now sep assignee
      if activity.2 then
        (PingHandler.pingMaintainerDirectly env sep assignee activity.1 cfg.dryRun).1 ::
          SEPProcessor.maintainerLoop cfg sponsorSet env events comments now sep rest
      else SEPProcessor.maintainerLoop cfg sponsorSet env events comments now sep rest
    else SEPProcessor.maintainerLoop cfg sponsorSet env events comments now sep rest

/-- `SEPProcessor.checkMaintainerAccountability`. -/
def SEPProcessor.checkMaintainerAccountability (cfg : Config)
    (sponsorSet : List String) (env : GitHubEnv) (events : List GitHubEvent)
    (comments : List GitHubComment) (now : Int) (sep : SEPItem) :
    List ActionResult :=
  SEPProcessor.maintainerLoop cfg sponsorSet env events comments now sep sep.assignees

/-- `SEPProcessor.getTargetUser`. -/
def SEPProcessor.getTargetUser (sponsorSet : List String) (sep : SEPItem) :
    PingTarget → Option String
  | PingTarget.author => some sep.author
  | PingTarget.sponsor => MaintainerResolver.getSponsor sponsorSet sep.assignees
  | PingTarget.maintainer => MaintainerResolver.getSponsor sponsorSet sep.assignees

/-- `SEPProcessor.updateSummaryFromStaleness` (src/processor.ts): on a
successful staleness result, re-analyze and append the matching summary
row (pushes append at the end, as `Array.prototype.push` does). -/
def SEPProcessor.updateSummaryFromStaleness (cfg : Config)
    (sponsorSet : List String) (comments : List GitHubComment) (now : Int)
    (result : ActionResult) (sep : SEPItem) (summary : SummaryData) :
    SummaryData :=
  if !result.success then summary
  else
    let analysis := SEPAnalyzer.analyze cfg comments now sep
    match result.action.type with
    | ActionType.needsSponsor =>
      { summary with needsSponsor :=
          summary.needsSponsor ++ [⟨sep, analysis.daysSinceActivity⟩] }
    | ActionType.markDormant =>
      { summary with dormant :=
          summary.dormant ++ [⟨sep, analysis.daysSinceActivity, analysis.shouldClose⟩] }
    | ActionType.pingAuthor | ActionType.pingSponsor | ActionType.pingMaintainer =>
      match analysis.pingTarget with
      | some t =>
        { summary with pings := summary.pings ++
            [⟨sep, t, (SEPProcessor.getTargetUser sponsorSet sep t).getD sep.author,
              analysis.daysSinceActivity⟩] }
      | none => summary
    | _ => summary

/-- The ping summary rows the maintainer-accountability pass pushes for
its successful results (this update IS awaited in the source, so it is
part of the summary visible at return). -/
def SEPProcessor.maintainerPingRows (cfg : Config)
    (events : List GitHubEvent) (comments : List GitHubComment) (now : Int)
    (sep : SEPItem) (results : List ActionResult) : List PingRow :=
  results.filterMap (fun r =>
    if r.success then
      match r.action.targetUser with
      | some u =>
        some ⟨sep, PingTarget.maintainer, u,
          (SEPAnalyzer.checkMaintainerActivity cfg events comments now sep u).1⟩
      | none => none
    else none)

/-- What one `process` call produces.  `summaryData` is the summary AS
VISIBLE AT THE MOMENT `process` RETURNS.  `pendingSummaryUpdates` models
the floating promise of processor.ts line 79: `updateSummaryFromStaleness`
is an async method invoked there WITHOUT `await`, so its pushes into the
summary run only after `process` has returned (its first await suspends
on a network call); they are therefore kept out of `summaryData` and
returned separately. -/
structure ProcessOutcome where
  results : List ActionResult
  summaryData : SummaryData
  pendingSummaryUpdates : SummaryData → SummaryData
  steps : List ProcStep

/-- `SEPProcessor.process` (src/processor.ts): skip closed items; else
attempt the auto-transition and stop there when one fires; else run the
staleness analysis and act on it (the staleness summary update is the
un-awaited pending one); independently, for `draft`/`in-review` items,
run the per-maintainer accountability pass, whose summary rows ARE
awaited and visible at return. -/
def SEPProcessor.process (cfg : Config) (sponsorSet : List String)
    (env : GitHubEnv) (comments : List GitHubComment)
    (events : List GitHubEvent) (now : Int) (sep : SEPItem) :
    ProcessOutcome :=
  if sep.isClosed then ⟨[], emptySummary, id, []⟩
  else
    match SEPProcessor.checkAutoTransition cfg sponsorSet env sep with
    | some ro =>
      let r := ro.1
      let summary :=
        if r.success then
          match r.action.toState with
          | some toState =>
            { emptySummary with transitions :=
                [⟨sep, sep.state, toState, r.action.targetUser.getD "unknown"⟩] }
          | none => emptySummary
        else emptySummary
      ⟨[r], summary, id, [ProcStep.autoTransition SEPState.draft]⟩
    | none =>
      let staleRes := SEPProcessor.checkStaleness cfg sponsorSet env comments now sep
      let staleResults : List ActionResult :=
        match staleRes with
        | some ro => [ro.1]
        | none => []
      let pending : SummaryData → SummaryData :=
        match staleRes with
        | some ro =>
          SEPProcessor.updateSummaryFromStaleness cfg sponsorSet comments now ro.1 sep
        | none => id
      let staleSteps : List ProcStep :=
        match staleRes with
        | some _ => [ProcStep.stalenessAnalysis, ProcStep.stalenessAction]
        | none => [ProcStep.stalenessAnalysis]
      let maintainerResults : List ActionResult :=
        if sep.state == some SEPState.draft || sep.state == some SEPState.inReview then
          SEPProcessor.checkMaintainerAccountability cfg sponsorSet env events comments now sep
        else []
      let maintainerRows :=
        SEPProcessor.maintainerPingRows cfg events comments now sep maintainerResults
      let maintainerSteps : List ProcStep :=
        maintainerResults.map (fun r => ProcStep.maintainerPing (r.action.targetUser.getD "unknown"))
      ⟨staleResults ++ maintainerResults,
        ⟨[], maintainerRows, [], []⟩,
        pending,
        staleSteps ++ maintainerSteps⟩

/-! ## Claim C5 -/

/-- C5: for an open `proposal` item with at least one assignee of whom at
least one is sponsor-eligible, `process` executes a transition to
`draft` and returns immediately: its only result is that transition's
and its only recorded step is the auto-transition — in particular no
staleness analysis or staleness action happens in the same pass. -/
theorem process_autoTransition_skips_staleness
    (cfg : Config) (sponsorSet : List String) (env : GitHubEnv)
    (comments : List GitHubComment) (events : List GitHubEvent) (now : Int)
    (sep : SEPItem)
    (hopen : sep.isClosed = false)
    (hstate : sep.state = some SEPState.proposal)
    (ha : ∃ a ∈ sep.assignees, a ∈ sponsorSet) :
    ∃ sponsor,
      MaintainerResolver.getSponsor sponsorSet sep.assignees = some sponsor ∧
      (SEPProcessor.process cfg sponsorSet env comments events now sep).results =
        [(TransitionHandler.executeTransition env sep SEPState.draft sponsor cfg.dryRun).1] ∧
      (SEPProcessor.process cfg sponsorSet env comments events now sep).steps =
        [ProcStep.autoTransition SEPState.draft] ∧
      ProcStep.stalenessAnalysis ∉
        (SEPProcessor.process cfg sponsorSet env comments events now sep).steps ∧
      ProcStep.stalenessAction ∉
        (SEPProcessor.process cfg sponsorSet env comments events now sep).steps := by
  have hsome : (MaintainerResolver.getSponsor sponsorSet sep.assignees).isSome := by
    unfold MaintainerResolver.getSponsor
    rw [List.find?_isSome]
    obtain ⟨a, hmem, hsp⟩ := ha
    exact ⟨a, hmem, by simpa [MaintainerResolver.canSponsor] using hsp⟩
  obtain ⟨sponsor, hsponsor⟩ := Option.isSome_iff_exists.mp hsome
  have hnonempty : sep.assignees.isEmpty = false := by
    obtain ⟨a, hmem, -⟩ := ha
    cases hassign : sep.assignees with
    | nil => rw [hassign] at hmem; cases hmem
    | cons x xs => rfl
  have hauto : SEPProcessor.checkAutoTransition cfg sponsorSet env sep =
      some (TransitionHandler.executeTransition env sep SEPState.draft sponsor cfg.dryRun) := by
    unfold SEPProcessor.checkAutoTransition
    rw [hstate, hnonempty, hsponsor]
    rfl
  have hres : (SEPProcessor.process cfg sponsorSet env comments events now sep).results =
      [(TransitionHandler.executeTransition env sep SEPState.draft sponsor cfg.dryRun).1] := by
    unfold SEPProcessor.process
    rw [hopen, hauto]
    rfl
  have hsteps : (SEPProcessor.process cfg sponsorSet env comments events now sep).steps =
      [ProcStep.autoTransition SEPState.draft] := by
    unfold SEPProcessor.process
    rw [hopen, hauto]
    rfl
  refine ⟨sponsor, hsponsor, hres, hsteps, ?_, ?_⟩ <;> rw [hsteps]
  · intro h
    rcases List.mem_singleton.mp h with h
    cases h
  · intro h
    rcases List.mem_singleton.mp h with h
    cases h

/-- A very stale proposal that nevertheless has a sponsor-eligible
assignee `m1`. -/
def sponsoredStaleProposal : SEPItem :=
  ⟨3, "SEP: sponsored", some SEPState.proposal, ["SEP", "proposal"],
    "gina", ["m1"], 0, false⟩

/-- Witness for C5: although `sponsoredStaleProposal` is 400 days
inactive (well past the dormant threshold), the pass records only the
auto-transition step. -/
theorem process_autoTransition_skips_staleness_witness :
    (SEPProcessor.process defaultConfig ["m1"] okEnv [] []
      (400 * MS_PER_DAY) sponsoredStaleProposal).steps =
      [ProcStep.autoTransition SEPState.draft] := by
  obtain ⟨s, -, -, hsteps, -, -⟩ :=
    process_autoTransition_skips_staleness defaultConfig ["m1"] okEnv [] []
      (400 * MS_PER_DAY) sponsoredStaleProposal rfl rfl
      ⟨"m1", by decide, by decide⟩
  exact hsteps

/-! ## Claim C7 -/

/-- The concrete C7 input: an open proposal, 200 days inactive, with no
assignees and no comments. -/
def staleLoneProposal : SEPItem :=
  ⟨11, "SEP: stale", some SEPState.proposal, ["SEP", "proposal"],
    "holly", [], 0, false⟩

/-- C7 (refuted — code bug): processing `staleLoneProposal` at 200 days
with every GitHub call succeeding yields a SUCCESSFUL mark-dormant
`ActionResult` in `results`, yet the `summaryData` visible at the moment
`process` returns has an empty `dormant` section; the corresponding row
materializes only in the pending (un-awaited) summary update of
processor.ts line 79.  This contradicts the claim that every successful
action of the pass has its summary row present in the returned
`ProcessResult`. -/
theorem process_dormant_summary_missing_at_return :
    (∃ r ∈ (SEPProcessor.process defaultConfig [] okEnv [] []
        (200 * MS_PER_DAY) staleLoneProposal).results,
      r.success = true ∧ r.action.type = ActionType.markDormant) ∧
    (SEPProcessor.process defaultConfig [] okEnv [] []
        (200 * MS_PER_DAY) staleLoneProposal).summaryData.dormant = [] ∧
    ((SEPProcessor.process defaultConfig [] okEnv [] []
          (200 * MS_PER_DAY) staleLoneProposal).pendingSummaryUpdates
        (SEPProcessor.process defaultConfig [] okEnv [] []
          (200 * MS_PER_DAY) staleLoneProposal).summaryData).dormant =
      [⟨staleLoneProposal, 200, true⟩] := by
  refine ⟨?_, rfl, ?_⟩
  · refine ⟨(PingHandler.executePing okEnv []
      (SEPAnalyzer.analyze defaultConfig [] (200 * MS_PER_DAY) staleLoneProposal)
      false).1, ?_, ?_, ?_⟩ <;> decide
  · decide

end SepAutomation
